import Mathlib

/-!
Verification of the slack-doorbell-camera repository.

The repository contains two polling detection loops (`run_detection` in
`main.py` and the legacy `detect_faces` in `doorbell.py`, whose trigger state
machines are line-for-line the same) and one filesystem-watch variant
(`FaceDetectionDoorbellRinger` in `ringer.py`).  Confidences are Python
floats; we model them as rationals.  This file embeds:

* the bounded deque window (`collections.deque([0]*window_size,
  maxlen=window_size)` and its `extend`),
* the per-iteration trigger logic of `run_detection` (window extend, average
  over capacity, threshold test, `rang` flag, `secs_since_rang` clock),
* the driver-loop error handling (VideoCaptureError fatal, HttpError skip,
  SlackDoorbellError fatal on a failed ring),
* the Vision-API confidence extraction (`get_face_confidences` /
  `_extract_face_confidences` / `_extract_face_confidence_values`, which are
  textually identical in their three modules),
* the `ringer.py` event handler (`on_created`, `_get_confidence`,
  `_already_rang_doorbell`, `_file_is_allowed`).
-/

namespace Doorbell

/-- The last `n` elements of a list: what survives in a bounded deque. -/
def takeLast (n : Nat) (l : List ℚ) : List ℚ :=
  l.drop (l.length - n)

/-- One `append` on a Python `collections.deque` with `maxlen = n`: the new
element goes to the right and, if the deque was full, the leftmost element is
evicted; the result is the last `n` elements of the old contents followed by
the new element. -/
def dequeAppend (n : Nat) (w : List ℚ) (x : ℚ) : List ℚ :=
  takeLast n (w ++ [x])

/-- `deque.extend(observations)` with `maxlen = n`: repeated `append`, one
observation at a time, left to right (main.py line 56 / doorbell.py
line 188). -/
def windowExtend (n : Nat) (w : List ℚ) (obs : List ℚ) : List ℚ :=
  obs.foldl (dequeAppend n) w

/-- `collections.deque([0]*window_size, maxlen=window_size)` (main.py
line 40): the window starts pre-filled with `window_size` zeros. -/
def mkWindow (n : Nat) : List ℚ :=
  List.replicate n 0

/-- Configuration of `run_detection` (main.py lines 14-15): sleep interval,
ring cool-down, window capacity and confidence threshold. -/
structure Config where
  sleepSecs : ℚ
  timeoutSecs : ℚ
  windowSize : Nat
  minConfidence : ℚ
deriving DecidableEq

/-- Mutable loop state of `run_detection` (main.py lines 40-42): the deque
`window`, the `rang` flag and the `secs_since_rang` clock. -/
structure DetState where
  window : List ℚ
  rang : Bool
  secsSinceRang : ℚ
deriving DecidableEq

/-- Initial state of `run_detection` (main.py lines 40-42): zero-filled
window, `rang = False`, `secs_since_rang = timeout_secs`. -/
def initState (cfg : Config) : DetState :=
  ⟨mkWindow cfg.windowSize, false, cfg.timeoutSecs⟩

/-- The decision taken by one iteration of `run_detection` for the frame it
processed: ring the doorbell, detect-but-suppress, or below threshold.  Each
carries the computed window average. -/
inductive Decision where
  | ring (conf : ℚ)
  | suppressed (conf : ℚ)
  | noRing (conf : ℚ)
deriving DecidableEq

/-- The window average computed at main.py line 57:
`sum(window) / window_size` — division by the capacity, not by the current
occupancy. -/
def confidenceOf (cfg : Config) (w : List ℚ) : ℚ :=
  w.sum / (cfg.windowSize : ℚ)

/-- One successful-frame iteration of `run_detection` (main.py lines 56-78,
with the `doorbell.ring` call succeeding): extend the window with the frame's
face confidences, average over the capacity, then

* if the average is at/above `min_confidence` and `not rang and
  secs_since_rang >= timeout_secs`: ring, set `rang = True`,
  `secs_since_rang = 0`;
* if the average is at/above `min_confidence` otherwise: suppress, leaving
  `rang` and `secs_since_rang` untouched (the clock does NOT advance here);
* if the average is below: `rang = False`, `secs_since_rang += sleep_secs`. -/
def engineStep (cfg : Config) (s : DetState) (cs : List ℚ) : Decision × DetState :=
  let w := windowExtend cfg.windowSize s.window cs
  let conf := confidenceOf cfg w
  if cfg.minConfidence ≤ conf then
    if s.rang = false ∧ cfg.timeoutSecs ≤ s.secsSinceRang then
      (Decision.ring conf, ⟨w, true, 0⟩)
    else
      (Decision.suppressed conf, ⟨w, s.rang, s.secsSinceRang⟩)
  else
    (Decision.noRing conf, ⟨w, false, s.secsSinceRang + cfg.sleepSecs⟩)

/-- The list of decisions produced by running `run_detection` from state `s`
over a list of per-frame observation lists (each detector call succeeding and
each ring delivered). -/
def runDecisions (cfg : Config) (s : DetState) : List (List ℚ) → List Decision
  | [] => []
  | cs :: rest =>
      (engineStep cfg s cs).1 :: runDecisions cfg (engineStep cfg s cs).2 rest

/-- The state after running `run_detection` from state `s` over a list of
per-frame observation lists. -/
def runState (cfg : Config) (s : DetState) (frames : List (List ℚ)) : DetState :=
  frames.foldl (fun t cs => (engineStep cfg t cs).2) s

/-- Constructor-only view of a `Decision`. -/
inductive DecisionKind where
  | ringK
  | suppressedK
  | noRingK
deriving DecidableEq

/-- The kind of a decision, forgetting the confidence value. -/
def kindOf : Decision → DecisionKind
  | .ring _ => .ringK
  | .suppressed _ => .suppressedK
  | .noRing _ => .noRingK

/-- `True` exactly for below-threshold decisions. -/
def isNoRing (d : Decision) : Bool :=
  match d with
  | .noRing _ => true
  | _ => false

/-- Outcome of one `detector.detect_faces()` call as seen by the `try` block
at main.py lines 46-53: a list of per-face confidences, a fatal
`VideoCaptureError`, or a transient `googleapiclient.errors.HttpError`. -/
inductive FrameResult where
  | ok (cs : List ℚ)
  | captureError
  | httpError
deriving DecidableEq

/-- What the loop body does at the end of an iteration: fall through to the
next iteration, or `break` out of `while True`. -/
inductive LoopSignal where
  | next
  | fatalStop
deriving DecidableEq

/-- One full iteration of the `while True` body of `run_detection` (main.py
lines 44-79), with error handling: a `VideoCaptureError` logs fatal and
breaks; an `HttpError` logs and `continue`s, leaving the whole state
untouched (no `extend` happens); a successful detection runs the trigger
logic of `engineStep`, and if that decides to ring but `doorbell.ring` raises
`SlackDoorbellError` (`deliveryOk = false`), the loop logs fatal and breaks —
at that point the window has already been extended but `rang` and
`secs_since_rang` keep their old values, because the `break` at line 70
precedes the assignments at lines 72-73. -/
def loopStep (cfg : Config) (deliveryOk : Bool) (s : DetState) (fr : FrameResult) :
    LoopSignal × Option Decision × DetState :=
  match fr with
  | .captureError => (.fatalStop, none, s)
  | .httpError => (.next, none, s)
  | .ok cs =>
      match engineStep cfg s cs with
      | (Decision.ring c, s') =>
          if deliveryOk then
            (.next, some (Decision.ring c), s')
          else
            (.fatalStop, some (Decision.ring c),
              ⟨windowExtend cfg.windowSize s.window cs, s.rang, s.secsSinceRang⟩)
      | (d, s') => (.next, some d, s')

/-- The Python runtime errors that the startup path of `run_detection` can
actually raise. `ConfigurationError` does not appear: no such class exists
anywhere in the repository. -/
inductive PyError where
  | valueError
  | zeroDivisionError
deriving DecidableEq

/-- `collections.deque([0]*window_size, maxlen=window_size)` (main.py
line 40) for an arbitrary integer `window_size`, as Python executes it:
`[0]*n` is `[]` for `n ≤ 0`, and `deque(..., maxlen=n)` raises
`ValueError: maxlen must be non-negative` when `n < 0`; otherwise
construction succeeds with `max n 0` zeros. -/
def mkWindowChecked (n : Int) : Except PyError (List ℚ) :=
  if n < 0 then Except.error PyError.valueError
  else Except.ok (List.replicate n.toNat 0)

/-- `sum(window) / window_size` (main.py line 57) as Python executes it for
an arbitrary integer `window_size`: raises `ZeroDivisionError` when
`window_size == 0`.  This expression is only reached inside the loop, on the
first successfully detected frame. -/
def averageChecked (n : Int) (w : List ℚ) : Except PyError ℚ :=
  if n = 0 then Except.error PyError.zeroDivisionError
  else Except.ok (w.sum / (n : ℚ))

/-- `get_face_confidences(response)` (doorbell.py lines 73-87), textually
identical to `_extract_face_confidences` (face_detector.py lines 69-84) and
to `_extract_face_confidence_values` (detector.py lines 28-43).  A Vision API
response carries a list of per-image results, each of which may or may not
contain a `faceAnnotations` list (modelled with `Option`); the annotations
are reduced here to their `detectionConfidence` floats.  All confidences are
collected in order, and an empty collection is normalized to `[0.0]`. -/
def getFaceConfidences (responses : List (Option (List ℚ))) : List ℚ :=
  let confidences := (responses.filterMap id).flatten
  if confidences.length = 0 then [0] else confidences

/-- Helper for `str.split('.')` on a character list: the accumulator holds
the current (reversed) segment. -/
def splitDotAux : List Char → List Char → List (List Char)
  | [], acc => [acc.reverse]
  | c :: rest, acc =>
      if c = '.' then acc.reverse :: splitDotAux rest []
      else splitDotAux rest (c :: acc)

/-- Python `path.split('.')`: the dot-separated segments of a path, always a
non-empty list. -/
def splitDot (path : List Char) : List (List Char) :=
  splitDotAux path []

/-- `ALLOWED_EXTENSIONS = 'jpg jpeg png gif'.split()` (ringer.py line 11). -/
def allowedExtensions : List (List Char) :=
  ["jpg".data, "jpeg".data, "png".data, "gif".data]

/-- `_file_is_allowed(event)` (ringer.py lines 52-54): the event is not a
directory and `event.src_path.split('.')[-1].lower()` is one of the allowed
image extensions.  Paths are modelled as character lists. -/
def fileIsAllowed (isDirectory : Bool) (srcPath : List Char) : Bool :=
  !isDirectory &&
    allowedExtensions.contains (((splitDot srcPath).getLastD []).map Char.toLower)

/-- Configuration of `FaceDetectionDoorbellRinger` (ringer.py lines 15-48):
confidence threshold and ring cool-down. -/
structure RingerConfig where
  minConfidence : ℚ
  timeoutSecs : ℚ
deriving DecidableEq

/-- Mutable state of `FaceDetectionDoorbellRinger`: `_time_of_prev_ring`, in
whole seconds (`int(time.time())`), initialized to `0` (ringer.py
line 49). -/
structure RingerState where
  timeOfPrevRing : Int
deriving DecidableEq

/-- `_already_rang_doorbell()` (ringer.py lines 56-57):
`int(time.time()) - self._time_of_prev_ring < self._timeout_secs` — the
integer clock difference is compared against the float timeout. -/
def alreadyRangDoorbell (cfg : RingerConfig) (now : Int) (s : RingerState) : Bool :=
  decide (((now - s.timeOfPrevRing : Int) : ℚ) < cfg.timeoutSecs)

/-- `_get_confidence(image_path)` (ringer.py lines 59-66): the mean
`sum(faces) / len(faces)` of the detector's confidences for this one image,
or `0.0` if the detection call raised `VisionAPIError`. -/
def getConfidence (detection : Except Unit (List ℚ)) : ℚ :=
  match detection with
  | Except.ok faces => faces.sum / (faces.length : ℚ)
  | Except.error _ => 0

/-- What one `on_created` call did: whether a detection request was issued,
whether a ring was attempted, whether the observer was stopped by a failed
ring, and the resulting handler state. -/
structure RingerOutcome where
  detectionCalled : Bool
  rangAttempted : Bool
  observerStopped : Bool
  state : RingerState
deriving DecidableEq

/-- `_ring_doorbell(confidence)` (ringer.py lines 68-75): on success,
`_time_of_prev_ring` is set to the current time; on `SlackDoorbellError`, the
error is logged as critical, the observer is stopped and the previous ring
time is left unchanged.  Returns (observer stopped?, new state). -/
def ringDoorbell (s : RingerState) (now : Int) (deliveryOk : Bool) :
    Bool × RingerState :=
  if deliveryOk then (false, ⟨now⟩) else (true, s)

/-- `on_created(event)` (ringer.py lines 77-106): if the event is an allowed
image file and the doorbell was not rung within the last `timeout_secs`, run
face detection on that single image, and ring when the image's mean
confidence reaches the threshold; otherwise the event is ignored and no
detection call is made.  Both calls to `int(time.time())` during one event
are modelled by the same `now`. -/
def onCreated (cfg : RingerConfig) (s : RingerState) (isDirectory : Bool)
    (srcPath : List Char) (now : Int) (detection : Except Unit (List ℚ))
    (deliveryOk : Bool) : RingerOutcome :=
  if fileIsAllowed isDirectory srcPath && !alreadyRangDoorbell cfg now s then
    let conf := getConfidence detection
    if cfg.minConfidence ≤ conf then
      let rung := ringDoorbell s now deliveryOk
      ⟨true, true, rung.1, rung.2⟩
    else
      ⟨true, false, false, s⟩
  else
    ⟨false, false, false, s⟩

end Doorbell

namespace Doorbell

theorem windowExtend_nil (n : Nat) (w : List ℚ) : windowExtend n w [] = w := rfl

theorem windowExtend_cons (n : Nat) (w : List ℚ) (x : ℚ) (obs : List ℚ) :
    windowExtend n w (x :: obs) = windowExtend n (dequeAppend n w x) obs := rfl

theorem takeLast_length (n : Nat) (l : List ℚ) :
    (takeLast n l).length = min n l.length := by
  simp [takeLast]
  omega

theorem dequeAppend_length (n : Nat) (w : List ℚ) (x : ℚ) :
    (dequeAppend n w x).length = min n (w.length + 1) := by
  simp [dequeAppend, takeLast_length]

theorem takeLast_all (n : Nat) (l : List ℚ) (h : l.length ≤ n) :
    takeLast n l = l := by
  have h0 : l.length - n = 0 := by omega
  simp [takeLast, h0]

theorem takeLast_idem_append (n : Nat) (l r : List ℚ) :
    takeLast n (takeLast n l ++ r) = takeLast n (l ++ r) := by
  simp only [takeLast, List.length_append, List.length_drop]
  rw [← List.drop_append_of_le_length (by omega : l.length - n ≤ l.length)]
  rw [List.drop_drop]
  congr 1
  omega

/-- Closed form of `deque.extend`: the result is the last `n` elements of the
old contents followed by the appended observations. -/
theorem windowExtend_eq_takeLast (n : Nat) (obs : List ℚ) :
    ∀ w : List ℚ, w.length ≤ n → windowExtend n w obs = takeLast n (w ++ obs) := by
  induction obs with
  | nil =>
      intro w hw
      simp [windowExtend, takeLast_all n w hw]
  | cons x rest ih =>
      intro w _
      rw [windowExtend_cons]
      have hlen : (dequeAppend n w x).length ≤ n := by
        rw [dequeAppend_length]
        exact Nat.min_le_left _ _
      rw [ih (dequeAppend n w x) hlen]
      show takeLast n (takeLast n (w ++ [x]) ++ rest) = _
      rw [takeLast_idem_append]
      simp

theorem windowExtend_append (n : Nat) (w a b : List ℚ) :
    windowExtend n w (a ++ b) = windowExtend n (windowExtend n w a) b := by
  simp [windowExtend, List.foldl_append]

theorem windowExtend_length (n : Nat) (w obs : List ℚ) (h : w.length ≤ n) :
    (windowExtend n w obs).length = min n (w.length + obs.length) := by
  rw [windowExtend_eq_takeLast n obs w h, takeLast_length]
  simp

theorem mem_takeLast (n : Nat) (l : List ℚ) (x : ℚ) (h : x ∈ takeLast n l) :
    x ∈ l :=
  List.drop_subset _ l h

theorem mem_windowExtend (n : Nat) (obs : List ℚ) :
    ∀ (w : List ℚ) (x : ℚ), x ∈ windowExtend n w obs → x ∈ w ∨ x ∈ obs := by
  induction obs with
  | nil =>
      intro w x hx
      exact Or.inl hx
  | cons y rest ih =>
      intro w x hx
      rw [windowExtend_cons] at hx
      rcases ih (dequeAppend n w y) x hx with h | h
      · rcases List.mem_append.mp (mem_takeLast n (w ++ [y]) x h) with h' | h'
        · exact Or.inl h'
        · exact Or.inr (List.mem_cons.mpr (Or.inl (List.mem_singleton.mp h')))
      · exact Or.inr (List.mem_cons.mpr (Or.inr h))

theorem confidenceOf_zero (cfg : Config) (w : List ℚ) (h : ∀ x ∈ w, x = 0) :
    confidenceOf cfg w = 0 := by
  simp [confidenceOf, List.sum_eq_zero h]

theorem confidenceOf_replicate (cfg : Config) (hn : 1 ≤ cfg.windowSize) (v : ℚ) :
    confidenceOf cfg (List.replicate cfg.windowSize v) = v := by
  rw [confidenceOf, List.sum_replicate, nsmul_eq_mul]
  exact mul_div_cancel_left₀ v (by positivity)

theorem engineStep_window (cfg : Config) (s : DetState) (cs : List ℚ) :
    (engineStep cfg s cs).2.window = windowExtend cfg.windowSize s.window cs := by
  simp only [engineStep]
  split_ifs <;> rfl

theorem engineStep_noRing (cfg : Config) (s : DetState) (cs : List ℚ)
    (h : confidenceOf cfg (windowExtend cfg.windowSize s.window cs) < cfg.minConfidence) :
    engineStep cfg s cs =
      (Decision.noRing (confidenceOf cfg (windowExtend cfg.windowSize s.window cs)),
        ⟨windowExtend cfg.windowSize s.window cs, false,
          s.secsSinceRang + cfg.sleepSecs⟩) := by
  simp only [engineStep]
  rw [if_neg (not_le.mpr h)]

theorem engineStep_ring (cfg : Config) (s : DetState) (cs : List ℚ)
    (h1 : cfg.minConfidence ≤ confidenceOf cfg (windowExtend cfg.windowSize s.window cs))
    (h2 : s.rang = false) (h3 : cfg.timeoutSecs ≤ s.secsSinceRang) :
    engineStep cfg s cs =
      (Decision.ring (confidenceOf cfg (windowExtend cfg.windowSize s.window cs)),
        ⟨windowExtend cfg.windowSize s.window cs, true, 0⟩) := by
  simp only [engineStep]
  rw [if_pos h1, if_pos ⟨h2, h3⟩]

theorem engineStep_suppressed (cfg : Config) (s : DetState) (cs : List ℚ)
    (h1 : cfg.minConfidence ≤ confidenceOf cfg (windowExtend cfg.windowSize s.window cs))
    (h2 : ¬(s.rang = false ∧ cfg.timeoutSecs ≤ s.secsSinceRang)) :
    engineStep cfg s cs =
      (Decision.suppressed (confidenceOf cfg (windowExtend cfg.windowSize s.window cs)),
        ⟨windowExtend cfg.windowSize s.window cs, s.rang, s.secsSinceRang⟩) := by
  simp only [engineStep]
  rw [if_pos h1, if_neg h2]

theorem engineStep_rang_of_noRing (cfg : Config) (s : DetState) (cs : List ℚ)
    (h : isNoRing (engineStep cfg s cs).1 = true) :
    (engineStep cfg s cs).2.rang = false := by
  by_cases hc : cfg.minConfidence ≤ confidenceOf cfg (windowExtend cfg.windowSize s.window cs)
  · by_cases hr : s.rang = false ∧ cfg.timeoutSecs ≤ s.secsSinceRang
    · rw [engineStep_ring cfg s cs hc hr.1 hr.2] at h
      simp [isNoRing] at h
    · rw [engineStep_suppressed cfg s cs hc hr] at h
      simp [isNoRing] at h
  · rw [engineStep_noRing cfg s cs (not_le.mp hc)]

theorem runDecisions_nil (cfg : Config) (s : DetState) :
    runDecisions cfg s [] = [] := rfl

theorem runDecisions_cons (cfg : Config) (s : DetState) (cs : List ℚ) (rest : List (List ℚ)) :
    runDecisions cfg s (cs :: rest) =
      (engineStep cfg s cs).1 :: runDecisions cfg (engineStep cfg s cs).2 rest := rfl

theorem runState_nil (cfg : Config) (s : DetState) : runState cfg s [] = s := rfl

theorem runState_cons (cfg : Config) (s : DetState) (cs : List ℚ) (rest : List (List ℚ)) :
    runState cfg s (cs :: rest) = runState cfg (engineStep cfg s cs).2 rest := rfl

theorem run_suppressed_of_rang (cfg : Config) :
    ∀ (frames : List (List ℚ)) (s : DetState), s.rang = true →
      (∀ d ∈ runDecisions cfg s frames, isNoRing d = false) →
      (runDecisions cfg s frames).map kindOf =
        List.replicate frames.length DecisionKind.suppressedK := by
  intro frames
  induction frames with
  | nil =>
      intro s _ _
      rfl
  | cons cs rest ih =>
      intro s hrang hq
      have hhead : isNoRing (engineStep cfg s cs).1 = false := by
        refine hq _ ?_
        rw [runDecisions_cons]
        exact List.mem_cons_self _ _
      have hconf : cfg.minConfidence ≤
          confidenceOf cfg (windowExtend cfg.windowSize s.window cs) := by
        by_contra hlt
        rw [engineStep_noRing cfg s cs (not_le.mp hlt)] at hhead
        simp [isNoRing] at hhead
      have hcond : ¬(s.rang = false ∧ cfg.timeoutSecs ≤ s.secsSinceRang) := by
        intro hc
        rw [hrang] at hc
        cases hc.1
      have hstep := engineStep_suppressed cfg s cs hconf hcond
      rw [runDecisions_cons, hstep]
      simp only [List.map_cons, List.length_cons, List.replicate_succ, kindOf]
      refine congrArg _ ?_
      refine ih _ hrang ?_
      intro d hd
      refine hq d ?_
      rw [runDecisions_cons, hstep]
      exact List.mem_cons_of_mem _ hd

theorem run_rang_false_of_noRing (cfg : Config) :
    ∀ (frames : List (List ℚ)) (s : DetState), frames ≠ [] →
      (∀ d ∈ runDecisions cfg s frames, isNoRing d = true) →
      (runState cfg s frames).rang = false := by
  intro frames
  induction frames with
  | nil =>
      intro s h _
      exact absurd rfl h
  | cons cs rest ih =>
      intro s _ hall
      cases rest with
      | nil =>
          rw [runState_cons, runState_nil]
          refine engineStep_rang_of_noRing cfg s cs ?_
          refine hall _ ?_
          rw [runDecisions_cons]
          exact List.mem_cons_self _ _
      | cons cs' rest' =>
          rw [runState_cons]
          refine ih _ (by simp) ?_
          intro d hd
          refine hall d ?_
          rw [runDecisions_cons]
          exact List.mem_cons_of_mem _ hd

theorem runState_window (cfg : Config) :
    ∀ (frames : List (List ℚ)) (s : DetState),
      (runState cfg s frames).window =
        windowExtend cfg.windowSize s.window frames.flatten := by
  intro frames
  induction frames with
  | nil =>
      intro s
      rfl
  | cons cs rest ih =>
      intro s
      rw [runState_cons, ih, engineStep_window, List.flatten_cons, windowExtend_append]

theorem flatten_replicate_singleton (k : Nat) (v : ℚ) :
    (List.replicate k [v]).flatten = List.replicate k v := by
  induction k with
  | zero => rfl
  | succ k ih => simp [List.replicate_succ, ih]

theorem windowExtend_fill (n k : Nat) (hk : n ≤ k) (v : ℚ) :
    windowExtend n (List.replicate n 0) (List.replicate k v) = List.replicate n v := by
  rw [windowExtend_eq_takeLast n _ _ (by simp)]
  have hsplit : List.replicate k v =
      List.replicate (k - n) v ++ List.replicate n v := by
    rw [← List.replicate_add]
    congr 1
    omega
  rw [hsplit, takeLast, ← List.append_assoc]
  have harith : (List.replicate n (0:ℚ) ++ (List.replicate (k - n) v ++ List.replicate n v)).length - n =
      (List.replicate n (0:ℚ) ++ List.replicate (k - n) v).length := by
    simp
    omega
  rw [← List.append_assoc] at harith
  rw [harith, List.drop_left]

theorem run_zero_stream (cfg : Config) (hmin : 0 < cfg.minConfidence) :
    ∀ (frames : List (List ℚ)) (s : DetState),
      (∀ x ∈ s.window, x = 0) →
      (∀ obs ∈ frames, ∀ x ∈ obs, x = (0:ℚ)) →
      ∀ d ∈ runDecisions cfg s frames, d = Decision.noRing 0 := by
  intro frames
  induction frames with
  | nil =>
      intro s _ _ d hd
      simp [runDecisions] at hd
  | cons cs rest ih =>
      intro s hw hz d hd
      have hwz : ∀ x ∈ windowExtend cfg.windowSize s.window cs, x = (0:ℚ) := by
        intro x hx
        rcases mem_windowExtend cfg.windowSize cs s.window x hx with h | h
        · exact hw x h
        · exact hz cs (List.mem_cons_self _ _) x h
      have hconf : confidenceOf cfg (windowExtend cfg.windowSize s.window cs) = 0 :=
        confidenceOf_zero cfg _ hwz
      have hstep := engineStep_noRing cfg s cs (by rw [hconf]; exact hmin)
      rw [runDecisions_cons, hstep] at hd
      rcases List.mem_cons.mp hd with h | h
      · rw [h, hconf]
      · refine ih _ (by simpa using hwz) ?_ d h
        intro obs hobs
        exact hz obs (List.mem_cons_of_mem _ hobs)

theorem foldl_windowExtend_length (n : Nat) :
    ∀ (seqs : List (List ℚ)) (w : List ℚ), w.length = n →
      (seqs.foldl (windowExtend n) w).length = n := by
  intro seqs
  induction seqs with
  | nil =>
      intro w hw
      simpa using hw
  | cons obs rest ih =>
      intro w hw
      rw [List.foldl_cons]
      refine ih _ ?_
      rw [windowExtend_length n w obs (le_of_eq hw), hw]
      omega

/-- C1 counterexample: with `timeout_secs = 10`, `sleep_secs = 1`,
`window_size = 1`, `min_confidence = 1/2` and a constant per-frame confidence
of `1` (so the window average is at/above threshold on every one of 11
iterations), `run_detection` rings only on the 1st iteration: the 11th
decision is `Suppressed`, not the `Ring` the claim predicts, and after all 11
iterations `secs_since_rang` is still `0` — the cool-down clock was never
advanced, because `secs_since_rang += sleep_secs` runs only in the
below-threshold branch (main.py lines 76-78). -/
theorem c1_counterexample :
    runDecisions ⟨1, 10, 1, 1/2⟩ (initState ⟨1, 10, 1, 1/2⟩)
        (List.replicate 11 [1]) =
      Decision.ring 1 :: List.replicate 10 (Decision.suppressed 1) ∧
    (runState ⟨1, 10, 1, 1/2⟩ (initState ⟨1, 10, 1, 1/2⟩)
        (List.replicate 11 [1])).secsSinceRang = 0 ∧
    Decision.suppressed 1 ≠ Decision.ring 1 := by
  refine ⟨?_, ?_, by simp⟩
  · norm_num [runDecisions, engineStep, initState, mkWindow, windowExtend,
      dequeAppend, takeLast, confidenceOf, List.replicate]
  · norm_num [runState, engineStep, initState, mkWindow, windowExtend,
      dequeAppend, takeLast, confidenceOf, List.replicate]

/-- C1 (amended): in `run_detection`, if the computed window average is at or
above `min_confidence` on every iteration, then the run from the initial
state produces exactly one `Ring` — on the 1st iteration — and every later
iteration is `Suppressed`, for every choice of `timeout_secs` and
`sleep_secs` and however many iterations pass: the cool-down clock
`secs_since_rang` advances only on below-threshold iterations and the `rang`
flag is cleared only when the average drops below threshold, so no second
ring can fire while the average stays at/above threshold. -/
theorem c1_cooldown_amended (cfg : Config) (frames : List (List ℚ))
    (hne : frames ≠ [])
    (hq : ∀ d ∈ runDecisions cfg (initState cfg) frames, isNoRing d = false) :
    (runDecisions cfg (initState cfg) frames).map kindOf =
      DecisionKind.ringK ::
        List.replicate (frames.length - 1) DecisionKind.suppressedK := by
  cases frames with
  | nil => exact absurd rfl hne
  | cons cs rest =>
      have hhead : isNoRing (engineStep cfg (initState cfg) cs).1 = false := by
        refine hq _ ?_
        rw [runDecisions_cons]
        exact List.mem_cons_self _ _
      have hconf : cfg.minConfidence ≤
          confidenceOf cfg (windowExtend cfg.windowSize (initState cfg).window cs) := by
        by_contra hlt
        rw [engineStep_noRing cfg _ cs (not_le.mp hlt)] at hhead
        simp [isNoRing] at hhead
      have hstep := engineStep_ring cfg (initState cfg) cs hconf rfl (le_refl _)
      rw [runDecisions_cons, hstep]
      simp only [List.map_cons, kindOf, List.length_cons, Nat.add_sub_cancel]
      refine congrArg _ ?_
      refine run_suppressed_of_rang cfg rest _ rfl ?_
      intro d hd
      refine hq d ?_
      rw [runDecisions_cons, hstep]
      exact List.mem_cons_of_mem _ hd

/-- C1 (amended) witness: the amended statement applied to the
counterexample's concrete configuration and 11 all-qualifying frames. -/
theorem c1_cooldown_amended_witness :
    (runDecisions ⟨1, 10, 1, 1/2⟩ (initState ⟨1, 10, 1, 1/2⟩)
        (List.replicate 11 [1])).map kindOf =
      DecisionKind.ringK :: List.replicate 10 DecisionKind.suppressedK := by
  have h := c1_cooldown_amended ⟨1, 10, 1, 1/2⟩ (List.replicate 11 [1])
    (by simp)
    (by norm_num [runDecisions, engineStep, initState, mkWindow, windowExtend,
      dequeAppend, takeLast, confidenceOf, isNoRing, List.replicate])
  simpa using h

/-- C2 counterexample: with `window_size = 2`, `min_confidence = 1/2`,
`timeout_secs = 0` and per-frame observations `[0.9], [0.9], [0.1], [0.9]`,
the third decision of `run_detection` is `Suppressed(0.5)`, not the
`Ring(0.5)` the claim predicts: the `rang` flag set by frame 2 blocks
re-ringing even though the zero cool-down has elapsed. -/
theorem c2_counterexample :
    (runDecisions ⟨1, 0, 2, 1/2⟩ (initState ⟨1, 0, 2, 1/2⟩)
        [[9/10], [9/10], [1/10], [9/10]])[2]? =
      some (Decision.suppressed (1/2)) ∧
    ∀ c : ℚ, (some (Decision.suppressed (1/2)) : Option Decision) ≠
      some (Decision.ring c) := by
  refine ⟨?_, by intro c; simp⟩
  norm_num [runDecisions, engineStep, initState, mkWindow, windowExtend,
    dequeAppend, takeLast, confidenceOf, List.replicate]

/-- C2 (amended): for a freshly started loop with `window_size = 2`,
`min_confidence = 1/2`, `timeout_secs = 0` and per-frame observations
`[0.9], [0.9], [0.1], [0.9]`, the four decisions are: no ring (average
`0.45`), ring (average `0.9`), suppressed (average `0.5`), suppressed
(average `0.5`) — frames 3 and 4 do not ring despite the zero cool-down,
because the `rang` flag stays set until the average drops below threshold. -/
theorem c2_scenario_amended :
    runDecisions ⟨1, 0, 2, 1/2⟩ (initState ⟨1, 0, 2, 1/2⟩)
        [[9/10], [9/10], [1/10], [9/10]] =
      [Decision.noRing (9/20), Decision.ring (9/10),
        Decision.suppressed (1/2), Decision.suppressed (1/2)] := by
  norm_num [runDecisions, engineStep, initState, mkWindow, windowExtend,
    dequeAppend, takeLast, confidenceOf, List.replicate]

/-- C3: for every capacity `N ≥ 1` the window is created pre-filled with `N`
zeros; after any sequence of `extend` calls its length is exactly `N`;
extending with any `k` observations (even `k > N`) leaves exactly the last
`N` elements of (previous contents ++ appended observations); and each single
insertion evicts exactly the oldest entry (strict FIFO). -/
theorem c3_window_invariant (n : Nat) (hn : 1 ≤ n) :
    (mkWindow n).length = n ∧
    (∀ seqs : List (List ℚ),
      (seqs.foldl (windowExtend n) (mkWindow n)).length = n) ∧
    (∀ w obs : List ℚ, w.length = n →
      windowExtend n w obs = takeLast n (w ++ obs)) ∧
    (∀ (w : List ℚ) (x : ℚ), w.length = n →
      windowExtend n w [x] = w.drop 1 ++ [x]) := by
  refine ⟨by simp [mkWindow], ?_, ?_, ?_⟩
  · intro seqs
    exact foldl_windowExtend_length n seqs (mkWindow n) (by simp [mkWindow])
  · intro w obs hw
    exact windowExtend_eq_takeLast n obs w (le_of_eq hw)
  · intro w x hw
    rw [windowExtend_eq_takeLast n [x] w (le_of_eq hw), takeLast]
    have h1 : (w ++ [x]).length - n = 1 := by
      rw [List.length_append, List.length_singleton, hw]
      omega
    rw [h1, List.drop_append_of_le_length (by omega : 1 ≤ w.length)]

/-- C3 witness: the invariant at capacity `2`, including one FIFO insertion
into the freshly created window. -/
theorem c3_window_invariant_witness :
    (mkWindow 2).length = 2 ∧
    windowExtend 2 (mkWindow 2) [(1:ℚ)] = (mkWindow 2).drop 1 ++ [1] := by
  have h := c3_window_invariant 2 (by norm_num)
  exact ⟨h.1, h.2.2.2 (mkWindow 2) 1 h.1⟩

/-- C4: if the average drops below `min_confidence` for at least one
iteration (every decision of the intervening run is a no-ring, which clears
the `rang` flag) and the next frame's average is back at/above threshold
while the cool-down clock has reached `timeout_secs`, then that qualifying
iteration produces a `Ring` decision, not a `Suppressed` one. -/
theorem c4_rearm (cfg : Config) (s : DetState) (below : List (List ℚ))
    (cs : List ℚ) (hne : below ≠ [])
    (hbelow : ∀ d ∈ runDecisions cfg s below, isNoRing d = true)
    (hconf : cfg.minConfidence ≤ confidenceOf cfg
      (windowExtend cfg.windowSize (runState cfg s below).window cs))
    (hclock : cfg.timeoutSecs ≤ (runState cfg s below).secsSinceRang) :
    (engineStep cfg (runState cfg s below) cs).1 =
      Decision.ring (confidenceOf cfg
        (windowExtend cfg.windowSize (runState cfg s below).window cs)) := by
  have hrang : (runState cfg s below).rang = false :=
    run_rang_false_of_noRing cfg below s hne hbelow
  rw [engineStep_ring cfg _ cs hconf hrang hclock]

/-- C4 witness: a state that has just rung (`rang = true`), one
below-threshold frame, then a qualifying frame with the clock at the
timeout — it rings. -/
theorem c4_rearm_witness :
    (engineStep (Config.mk 1 1 1 (1/2))
        (runState (Config.mk 1 1 1 (1/2)) ⟨[1], true, 0⟩ [[0]]) [1]).1 =
      Decision.ring (confidenceOf (Config.mk 1 1 1 (1/2))
        (windowExtend (Config.mk 1 1 1 (1/2)).windowSize
          (runState (Config.mk 1 1 1 (1/2)) ⟨[1], true, 0⟩ [[0]]).window [1])) := by
  refine c4_rearm (Config.mk 1 1 1 (1/2)) ⟨[1], true, 0⟩ [[0]] [1] (by simp) ?_ ?_ ?_
  · norm_num [runDecisions, engineStep, windowExtend, dequeAppend, takeLast,
      confidenceOf, isNoRing]
  · norm_num [runState, engineStep, windowExtend, dequeAppend, takeLast,
      confidenceOf]
  · norm_num [runState, engineStep, windowExtend, dequeAppend, takeLast,
      confidenceOf]

/-- C5: when the detector call fails with `googleapiclient.errors.HttpError`,
the iteration of `run_detection` performs no `extend` and leaves the entire
state — window, `rang` flag and cool-down clock — exactly as it was, and the
loop continues with the next frame rather than stopping (main.py
lines 51-53: `logger.error(err)` then `continue`, before the window is
touched). -/
theorem c5_httpError_preserves_state (cfg : Config) (deliveryOk : Bool)
    (s : DetState) :
    loopStep cfg deliveryOk s FrameResult.httpError =
      (LoopSignal.next, none, s) := rfl

/-- C6 counterexample: with the default (and only) behavior of
`run_detection`, a `SlackDoorbellError` raised by `doorbell.ring` after a
`Ring` decision makes the loop log fatal and `break` — it does not continue,
and no configuration exists to change that. -/
theorem c6_counterexample :
    (loopStep ⟨1, 10, 1, 1/2⟩ false (initState ⟨1, 10, 1, 1/2⟩)
        (FrameResult.ok [1])).1 = LoopSignal.fatalStop ∧
    LoopSignal.fatalStop ≠ LoopSignal.next := by
  constructor
  · have hstep : engineStep ⟨1, 10, 1, 1/2⟩ (initState ⟨1, 10, 1, 1/2⟩) [1] =
        (Decision.ring 1, ⟨[1], true, 0⟩) := by
      norm_num [engineStep, initState, mkWindow, windowExtend, dequeAppend,
        takeLast, confidenceOf, List.replicate]
    simp only [loopStep, hstep]
    rfl
  · simp

/-- C6 (amended): in `run_detection` a notification-delivery failure
(`SlackDoorbellError`) after a `Ring` decision is always fatal: the error is
logged and the loop breaks, unconditionally — there is no configuration
policy, and log-and-continue is not the behavior (the TODO at main.py line 68
acknowledges that not all failed rings should be fatal).  Only the legacy
`doorbell.py` variant's `notify_slack` logs a failed post and carries on. -/
theorem c6_delivery_amended (cfg : Config) (s : DetState) (cs : List ℚ)
    (c : ℚ) (hring : (engineStep cfg s cs).1 = Decision.ring c) :
    (loopStep cfg false s (FrameResult.ok cs)).1 = LoopSignal.fatalStop := by
  rcases hE : engineStep cfg s cs with ⟨d, s'⟩
  rw [hE] at hring
  simp only at hring
  subst hring
  simp [loopStep, hE]

/-- C6 (amended) witness: a concrete ringing iteration whose delivery fails
stops the loop. -/
theorem c6_delivery_amended_witness :
    (loopStep (Config.mk 1 10 1 (1/2)) false (initState (Config.mk 1 10 1 (1/2)))
        (FrameResult.ok [2])).1 = LoopSignal.fatalStop := by
  refine c6_delivery_amended (Config.mk 1 10 1 (1/2)) _ [2] 2 ?_
  norm_num [engineStep, initState, mkWindow, windowExtend, dequeAppend,
    takeLast, confidenceOf, List.replicate]

/-- C7 counterexample: `window_size = 0` satisfies `window_size ≤ 0`, yet the
construction at main.py line 40 succeeds (an empty deque) — the program does
not fail fast with a `ConfigurationError` before the loop; instead the first
iteration's `sum(window) / window_size` raises `ZeroDivisionError` inside the
loop. -/
theorem c7_counterexample :
    mkWindowChecked 0 = Except.ok ([] : List ℚ) ∧
    averageChecked 0 [] = Except.error PyError.zeroDivisionError ∧
    ((0 : Int) ≤ 0) := by
  refine ⟨?_, ?_, le_refl 0⟩
  · simp [mkWindowChecked]
  · simp [averageChecked]

/-- C7 (amended): `run_detection` performs no validation of `window_size`
and no `ConfigurationError` exists in the repository: `window_size = 0`
constructs an empty window successfully and the loop is entered, failing only
at the first average with `ZeroDivisionError`; `window_size < 0` raises
`ValueError` from the deque constructor (`maxlen must be non-negative`). -/
theorem c7_validation_amended :
    mkWindowChecked 0 = Except.ok ([] : List ℚ) ∧
    (∀ w : List ℚ, averageChecked 0 w = Except.error PyError.zeroDivisionError) ∧
    (∀ n : Int, n < 0 → mkWindowChecked n = Except.error PyError.valueError) := by
  refine ⟨by simp [mkWindowChecked], fun w => by simp [averageChecked],
    fun n hn => by simp [mkWindowChecked, hn]⟩

/-- C7 (amended) witness: the amended statement at `window_size = -3` and at
`window_size = 0`. -/
theorem c7_validation_amended_witness :
    mkWindowChecked (-3) = Except.error PyError.valueError ∧
    averageChecked 0 [0] = Except.error PyError.zeroDivisionError :=
  ⟨c7_validation_amended.2.2 (-3) (by norm_num), c7_validation_amended.2.1 [0]⟩

/-- C8: for every Vision API response, the extracted confidence list is
non-empty: with zero face annotations the result is exactly `[0.0]`, so
every successful frame advances the window by at least one observation.
This covers `get_face_confidences` (doorbell.py), `_extract_face_confidences`
(face_detector.py) and `_extract_face_confidence_values` (detector.py), which
are identical. -/
theorem c8_confidences_nonempty (responses : List (Option (List ℚ))) :
    1 ≤ (getFaceConfidences responses).length := by
  by_cases h : ((responses.filterMap id).flatten).length = 0
  · simp [getFaceConfidences, h]
  · simp only [getFaceConfidences, if_neg h]
    omega

/-- C9: the per-iteration trigger confidence is `sum(window) / window_size`
(division by the capacity); a constant stream of value `v` makes the window
all-`v` once at least `window_size` frames have passed, so the average is
exactly `v`; and an all-zero stream keeps the average at `0` and yields a
no-ring decision on every iteration, for any threshold `> 0`. -/
theorem c9_average_semantics (cfg : Config) (hn : 1 ≤ cfg.windowSize) (v : ℚ)
    (k : Nat) (hk : cfg.windowSize ≤ k) :
    (∀ w : List ℚ, confidenceOf cfg w = w.sum / (cfg.windowSize : ℚ)) ∧
    (runState cfg (initState cfg) (List.replicate k [v])).window =
      List.replicate cfg.windowSize v ∧
    confidenceOf cfg (runState cfg (initState cfg) (List.replicate k [v])).window = v ∧
    (0 < cfg.minConfidence →
      ∀ frames : List (List ℚ), (∀ obs ∈ frames, ∀ x ∈ obs, x = (0:ℚ)) →
        ∀ d ∈ runDecisions cfg (initState cfg) frames, d = Decision.noRing 0) := by
  have hwin : (runState cfg (initState cfg) (List.replicate k [v])).window =
      List.replicate cfg.windowSize v := by
    rw [runState_window, flatten_replicate_singleton]
    exact windowExtend_fill cfg.windowSize k hk v
  refine ⟨fun w => rfl, hwin, ?_, ?_⟩
  · rw [hwin]
    exact confidenceOf_replicate cfg hn v
  · intro hmin frames hz
    refine run_zero_stream cfg hmin frames (initState cfg) ?_ hz
    intro x hx
    exact List.eq_of_mem_replicate hx

/-- C9 witness: capacity `2`, threshold `7/10`, three frames of constant
value `1/3` fill the window with `1/3`. -/
theorem c9_average_semantics_witness :
    (runState (Config.mk 1 10 2 (7/10)) (initState (Config.mk 1 10 2 (7/10)))
        (List.replicate 3 [1/3])).window = List.replicate 2 (1/3 : ℚ) :=
  (c9_average_semantics (Config.mk 1 10 2 (7/10)) (by norm_num) (1/3) 3
    (by norm_num)).2.1

/-- C10: in the filesystem-watch variant, the ring decision of `on_created`
uses only the single created image: the confidence compared against
`min_confidence` is `sum(faces) / len(faces)` for that image (or `0.0` on a
detection error), with no rolling window in the handler state; and an event
arriving while `int(time.time()) - _time_of_prev_ring < timeout_secs` makes
no detection call at all and changes nothing. -/
theorem c10_ringer_single_image (cfg : RingerConfig) (s : RingerState)
    (isDirectory : Bool) (srcPath : List Char) (now : Int)
    (detection : Except Unit (List ℚ)) (deliveryOk : Bool) :
    ((((now - s.timeOfPrevRing : Int) : ℚ) < cfg.timeoutSecs) →
      onCreated cfg s isDirectory srcPath now detection deliveryOk =
        ⟨false, false, false, s⟩) ∧
    (∀ faces : List ℚ,
      getConfidence (Except.ok faces) = faces.sum / (faces.length : ℚ)) ∧
    (getConfidence (Except.error ()) = 0) ∧
    (fileIsAllowed isDirectory srcPath = true →
      ¬(((now - s.timeOfPrevRing : Int) : ℚ) < cfg.timeoutSecs) →
      (onCreated cfg s isDirectory srcPath now detection deliveryOk).rangAttempted =
        decide (cfg.minConfidence ≤ getConfidence detection)) := by
  refine ⟨?_, fun faces => rfl, rfl, ?_⟩
  · intro htime
    push_cast at htime
    have hB : alreadyRangDoorbell cfg now s = true := by
      simp [alreadyRangDoorbell, htime]
    simp [onCreated, hB]
  · intro hfile htime
    push_cast at htime
    have hB : alreadyRangDoorbell cfg now s = false := by
      simp [alreadyRangDoorbell, htime]
    by_cases hc : cfg.minConfidence ≤ getConfidence detection
    · simp [onCreated, hB, hfile, hc]
    · simp [onCreated, hB, hfile, hc]

/-- C10 witness: an allowed image event 5 seconds after a ring with a
10-second timeout is ignored with no detection call; the same event 50
seconds later runs detection and attempts a ring exactly when the single
image's mean confidence reaches the threshold. -/
theorem c10_ringer_single_image_witness :
    onCreated (RingerConfig.mk (7/10) 10) (RingerState.mk 0) false
        "door.jpg".data 5 (Except.ok [1]) true =
      ⟨false, false, false, RingerState.mk 0⟩ ∧
    (onCreated (RingerConfig.mk (7/10) 10) (RingerState.mk 0) false
        "door.jpg".data 50 (Except.ok [1]) true).rangAttempted =
      decide ((7/10 : ℚ) ≤ getConfidence (Except.ok [1])) := by
  constructor
  · exact (c10_ringer_single_image (RingerConfig.mk (7/10) 10)
      (RingerState.mk 0) false ("door.jpg".data) 5 (Except.ok [1]) true).1
      (by norm_num)
  · exact (c10_ringer_single_image (RingerConfig.mk (7/10) 10)
      (RingerState.mk 0) false ("door.jpg".data) 50 (Except.ok [1]) true).2.2.2
      (by decide) (by norm_num)

end Doorbell
